import Mathlib

/-!
Shallow embedding of the authentication endpoint of
`irods_client_rest_cpp_beast` (`src/endpoints/authentication/impl.cpp`),
together with proofs settling the behavioural claims about it.

The embedding mirrors the C++ source:
* JSON documents (`nlohmann::json` as used by the handler) become the
  inductive `Json`;
* the form encoder `encode_body`, the error predicate `is_error_response`
  and the credential decoder `decode_username_and_password` are translated
  function by function;
* the handler `authentication` becomes a pure state machine parameterised
  by its external collaborators (token-endpoint exchange, JWT payload
  decoding, the backend credential check and the token stash), with the
  response and the list of stash insertions as its observable output.

External collaborators whose code is not part of this repository
(percent-encoding, base64 primitives, `irods::process_stash::insert`) are
modelled from the specification and carry a doc comment saying so.
-/

namespace AuthSpec

/-- JSON documents as the handler sees them (`nlohmann::json`). -/
inductive Json where
  | null : Json
  | bool : Bool → Json
  | num : Int → Json
  | str : String → Json
  | arr : List Json → Json
  | obj : List (String × Json) → Json
  deriving Repr

/-- `doc.find(key)` on an object: first binding of the key; `end()` (here
`none`) on non-objects and missing keys. -/
def Json.find (j : Json) (k : String) : Option Json :=
  match j with
  | .obj fields => fields.lookup k
  | _ => none

/-- `doc.contains(key)`. -/
def Json.containsKey (j : Json) (k : String) : Bool :=
  (j.find k).isSome

/-- `doc.is_array()`. -/
def Json.isArray (j : Json) : Bool :=
  match j with
  | .arr _ => true
  | _ => false

/-- `value.get<std::string>()` / `get_ref<const std::string&>()`: the string
payload when the value is a string, otherwise a thrown exception (`none`). -/
def Json.asStr (j : Json) : Option String :=
  match j with
  | .str s => some s
  | _ => none

/-- `doc.at(key).get<std::string>()`: `none` models the exception thrown when
the key is absent or the value is not a string. -/
def Json.getStr (j : Json) (k : String) : Option String :=
  (j.find k).bind Json.asStr

/-- Top-level keys of a document (objects only; other documents have none). -/
def Json.keys (j : Json) : List String :=
  match j with
  | .obj fields => fields.map Prod.fst
  | _ => []

/-- Modelled from the spec: `irods::http::encode` (URL percent-encoding of a
string), an external helper not part of this repository's source. Unreserved
characters (ALPHA / DIGIT / `-` / `.` / `_` / `~`) pass through; every other
byte becomes `%XX` with uppercase hex digits. -/
def isUnreservedChar (c : Char) : Bool :=
  c.isAlpha || c.isDigit || c = '-' || c = '.' || c = '_' || c = '~'

/-- Uppercase hexadecimal digit of a value below 16. -/
def hexDigitChar (n : Nat) : Char :=
  if n < 10 then Char.ofNat (48 + n) else Char.ofNat (55 + n)

/-- Numeric value of a hexadecimal digit character (0 for non-digits). -/
def hexDigitVal (c : Char) : Nat :=
  if 48 ≤ c.toNat ∧ c.toNat ≤ 57 then c.toNat - 48
  else if 65 ≤ c.toNat ∧ c.toNat ≤ 70 then c.toNat - 55
  else if 97 ≤ c.toNat ∧ c.toNat ≤ 102 then c.toNat - 87
  else 0

/-- Percent-encoding of one character (one byte of the C++ string). -/
def pencodeChar (c : Char) : List Char :=
  if isUnreservedChar c then [c]
  else ['%', hexDigitChar (c.toNat / 16 % 16), hexDigitChar (c.toNat % 16)]

/-- Percent-encoding of a character list. -/
def pencodeList (cs : List Char) : List Char :=
  cs.flatMap pencodeChar

/-- Modelled from the spec: percent-encoding of a whole string
(`irods::http::encode`). -/
def pencode (s : String) : String :=
  ⟨pencodeList s.data⟩

/-- Percent-decoding of a character list: `%XY` becomes the byte `16*X + Y`,
anything else passes through. -/
def pdecodeList : List Char → List Char
  | '%' :: a :: b :: rest =>
      Char.ofNat (16 * hexDigitVal a + hexDigitVal b) :: pdecodeList rest
  | c :: rest => c :: pdecodeList rest
  | [] => []

/-- Modelled from the spec: percent-decoding of a string, inverse of
`pencode` on byte strings. -/
def pdecode (s : String) : String :=
  ⟨pdecodeList s.data⟩

/-- `encode_pair` (the lambda inside `encode_body`):
`fmt::format("{}={}", encode(key), encode(value))`. -/
def encode_pair (p : String × String) : String :=
  pencode p.1 ++ "=" ++ pencode p.2

/-- `encode_body`: `std::transform_reduce` over the argument pairs, seeded
with the first encoded pair and joining with `&`. The C++ iterates an
`unordered_map`; the embedding uses the explicitly ordered list of pairs in
source order, as the specification directs. Empty input is invalid in the
source (it dereferences `cbegin`); the embedding returns `""` there. -/
def encode_body (args : List (String × String)) : String :=
  match args with
  | [] => ""
  | p :: ps => ps.foldl (fun acc q => acc ++ "&" ++ encode_pair q) (encode_pair p)

/-- Modelled from the spec: the decoder for `application/x-www-form-urlencoded`
bodies (`decode` of §4.3/§8): split on `&`, split each piece at the first `=`,
percent-decode key and value. Splitting on `&`. -/
def splitOnAmpList : List Char → List (List Char)
  | [] => [[]]
  | c :: rest =>
    if c = '&' then [] :: splitOnAmpList rest
    else
      match splitOnAmpList rest with
      | [] => [[c]]
      | piece :: pieces => (c :: piece) :: pieces

/-- Split a piece at its first `=` into key and value characters. -/
def splitFirstEqList : List Char → List Char × List Char
  | [] => ([], [])
  | c :: rest =>
    if c = '=' then ([], rest)
    else
      let kv := splitFirstEqList rest
      (c :: kv.1, kv.2)

/-- Modelled from the spec: `decode(body)`, reconstructing the pair sequence
from an encoded form body. -/
def decode_body (s : String) : List (String × String) :=
  (splitOnAmpList s.data).map fun piece =>
    let kv := splitFirstEqList piece
    (⟨pdecodeList kv.1⟩, ⟨pdecodeList kv.2⟩)

/-- `is_error_response`: true iff the top-level `error` key exists.
The `error_description` / `error_uri` branches only build the log line. -/
def is_error_response (response_to_check : Json) : Bool :=
  (response_to_check.find "error").isSome

/-- Modelled from the spec: value of one base64 alphabet character for the
external `irods::base64_decode` primitive (out-of-scope collaborator, §1). -/
def b64val (c : Char) : Option Nat :=
  if 65 ≤ c.toNat ∧ c.toNat ≤ 90 then some (c.toNat - 65)
  else if 97 ≤ c.toNat ∧ c.toNat ≤ 122 then some (c.toNat - 97 + 26)
  else if 48 ≤ c.toNat ∧ c.toNat ≤ 57 then some (c.toNat - 48 + 52)
  else if c = '+' then some 62
  else if c = '/' then some 63
  else none

/-- Modelled from the spec: standard base64 decoding of four-character groups
into bytes (as characters of code below 256); `none` on malformed input. -/
def base64DecodeGroups : List Char → Option (List Char)
  | [] => some []
  | a :: b :: c :: d :: rest => do
      let va ← b64val a
      let vb ← b64val b
      if c = '=' then
        if d = '=' ∧ rest = [] then
          some [Char.ofNat (va * 4 + vb / 16)]
        else none
      else do
        let vc ← b64val c
        if d = '=' then
          if rest = [] then
            some [Char.ofNat (va * 4 + vb / 16), Char.ofNat (vb % 16 * 16 + vc / 4)]
          else none
        else do
          let vd ← b64val d
          let tail ← base64DecodeGroups rest
          some (Char.ofNat (va * 4 + vb / 16) :: Char.ofNat (vb % 16 * 16 + vc / 4)
            :: Char.ofNat (vc % 4 * 64 + vd) :: tail)
  | _ => none

/-- Modelled from the spec: `irods::base64_decode`; `none` models a decoding
error (malformed base64). -/
def base64_decode (s : String) : Option (List Char) :=
  base64DecodeGroups s.data

/-- `max_creds_size`: the bound of the decoded-credential buffer. -/
def max_creds_size : Nat := 128

/-- `boost::trim`: drop leading and trailing whitespace (modelled on the
character list so that it evaluates by reduction). -/
def trimList (cs : List Char) : List Char :=
  ((cs.dropWhile Char.isWhitespace).reverse.dropWhile Char.isWhitespace).reverse

/-- `boost::trim` on a string. -/
def strTrim (s : String) : String :=
  ⟨trimList s.data⟩

/-- `sv.find(':')` followed by the two `substr` calls: the characters before
the first `:` and the characters after it, `none` when no colon occurs. -/
def splitFirstColon : List Char → Option (List Char × List Char)
  | [] => none
  | c :: rest =>
    if c = ':' then some ([], rest)
    else (splitFirstColon rest).map fun kv => (c :: kv.1, kv.2)

/-- `decode_username_and_password`: trim, base64-decode into the bounded
buffer (a failed or oversized decode leaves nothing usable; the source ignores
the primitive's error code), then split at the first `:`; no colon yields
`("", "")`. -/
def decode_username_and_password (encoded_data : String) : String × String :=
  let authorization := strTrim encoded_data
  let creds : List Char :=
    match base64_decode authorization with
    | some bs => if bs.length ≤ max_creds_size then bs else []
    | none => []
  match splitFirstColon creds with
  | none => ("", "")
  | some kv => (⟨kv.1⟩, ⟨kv.2⟩)

/-- `authorization_scheme` of `authenticated_client_info`. -/
inductive AuthorizationScheme where
  | basic : AuthorizationScheme
  | openid_connect : AuthorizationScheme
  deriving Repr, DecidableEq

/-- `authenticated_client_info` handed to the stash. Timestamps are `Nat`
instants of the steady clock. -/
structure AuthenticatedClientInfo where
  auth_scheme : AuthorizationScheme
  username : String
  password : Option String := none
  expires_at : Nat
  deriving Repr, DecidableEq

/-- The response statuses the handler produces. -/
inductive StatusType where
  | ok : StatusType
  | found : StatusType
  | badRequest : StatusType
  | unauthorized : StatusType
  | methodNotAllowed : StatusType
  deriving Repr, DecidableEq

/-- Observable parts of the HTTP response the handler sends. -/
structure ResponseT where
  status : StatusType
  contentType : Option String := none
  location : Option String := none
  body : String := ""
  deriving Repr, DecidableEq

/-- `fail(status)`: an error response with no content-type, location or body. -/
def failResp (s : StatusType) : ResponseT :=
  { status := s }

/-- `oidc_configuration` (external read-only configuration). -/
structure OidcConfiguration where
  client_id : String
  redirect_uri : String

/-- `oidc_endpoint_configuration` (external read-only discovery document). -/
structure OidcEndpointConfiguration where
  authorization_endpoint : String
  issuer : String

/-- Modelled from the spec: `irods::process_stash::insert(info) -> token`
(external stash, §4.6): stores the record and returns an opaque bearer token,
here a non-empty fresh key derived from the stash size. -/
def process_stash_insert (stash : List AuthenticatedClientInfo)
    (info : AuthenticatedClientInfo) : String × List AuthenticatedClientInfo :=
  ("token-" ++ toString stash.length, stash ++ [info])

/-- `std::string_view::find(pattern)` starting from index `i` of `hay`. -/
def findSubAux (pat : List Char) : List Char → Nat → Option Nat
  | [], i => if List.isPrefixOf pat [] then some i else none
  | c :: t, i =>
    if List.isPrefixOf pat (c :: t) then some i else findSubAux pat t (i + 1)

/-- `value.find(pattern)`: index of the first occurrence of `pattern` as a
substring, `npos` (`none`) when absent. -/
def findSub (s pat : String) : Option Nat :=
  findSubAux pat.data s.data 0

/-- `value.substr(n)` (character positions model the byte positions). -/
def sliceFrom (s : String) (n : Nat) : String :=
  ⟨s.data.drop n⟩

/-- Outcome of the guarded backend section of the Basic branch: either
`rc_check_auth_credentials` returned error code `ec` with out-parameter
`correct` (`none` models a null pointer), or an exception escaped one of the
connection / obfuscation / RPC steps. -/
inductive RpcCheckResult where
  | ok : Int → Option Int → RpcCheckResult
  | exc : RpcCheckResult

/-- The `try`/`catch` block around the backend check: the resulting
`login_successful` flag, paired with whether the `at_scope_exit` guard freed
the out-parameter on that path (it runs on success, failure and exception
alike). -/
def basic_login_check (r : RpcCheckResult) : Bool × Bool :=
  match r with
  | .ok ec correct => (if ec < 0 then false else decide (correct = some 1), true)
  | .exc => (false, true)

/-- External collaborators of the handler, passed in as functions:
`hit_token_endpoint` composed after `encode_body` (the synchronous token
exchange), the JWT payload decoder (`jwt::decode(...).get_payload_json()`,
`none` models a parse throw), and the backend credential check of the Basic
branch keyed by username and password. -/
structure Collaborators where
  exchange : String → Json
  jwtDecode : String → Option Json
  checkAuth : String → String → RpcCheckResult

/-- Static environment of one request: the OIDC client configuration, the
discovery document, the configured `timeout_in_seconds`, and the current
steady-clock instant. -/
structure Env where
  oidc : OidcConfiguration
  endp : OidcEndpointConfiguration
  timeout_in_seconds : Nat
  now : Nat

/-- Result of one dispatched unit of work: the response sent through the
session, and the stash after any insertion. `none` models an exception
escaping the background task (a path the source does not handle). -/
abbrev HandlerResult := Option (ResponseT × List AuthenticatedClientInfo)

/-- The `200 text/plain` response carrying a bearer token as its body. -/
def token_response (body : String) : ResponseT :=
  { status := .ok, contentType := some "text/plain", body := body }

/-- The `authenticated_client_info` the Basic branch inserts on success. -/
def basicInfo (env : Env) (up : String × String) : AuthenticatedClientInfo :=
  { auth_scheme := .basic
    username := up.1
    password := some up.2
    expires_at := env.now + env.timeout_in_seconds }

/-- The `authenticated_client_info` the OIDC paths insert on success. -/
def oidcInfo (env : Env) (irods_name : String) : AuthenticatedClientInfo :=
  { auth_scheme := .openid_connect
    username := irods_name
    expires_at := env.now + env.timeout_in_seconds }

/-- The form arguments of the ROPC token request (`impl.cpp` lines 540–546),
in source order. -/
def ropc_args (env : Env) (username password : String) : List (String × String) :=
  [("client_id", env.oidc.client_id), ("grant_type", "password"),
   ("scope", "openid"), ("username", username), ("password", password)]

/-- The form arguments of the authorization-code token request
(`impl.cpp` lines 308–314), in source order. -/
def token_request_args (env : Env) (code : String) : List (String × String) :=
  [("grant_type", "authorization_code"), ("client_id", env.oidc.client_id),
   ("code", code), ("redirect_uri", env.oidc.redirect_uri)]

/-- The Basic-Auth branch of the POST handler (`impl.cpp` lines 436–527),
applied to the header text after the matched scheme tag. -/
def auth_basic_branch (env : Env) (co : Collaborators)
    (stash : List AuthenticatedClientInfo) (encoded : String) : HandlerResult :=
  let up := decode_username_and_password encoded
  if up.1 = "" ∨ up.2 = "" then
    some (failResp .unauthorized, stash)
  else
    let check := basic_login_check (co.checkAuth up.1 up.2)
    if ¬ check.1 then
      some (failResp .unauthorized, stash)
    else
      let inserted := process_stash_insert stash (basicInfo env up)
      some (token_response inserted.1, inserted.2)

/-- The ROPC branch of the POST handler (`impl.cpp` lines 529–594), applied to
the header text after the matched scheme tag. -/
def auth_ropc_branch (env : Env) (co : Collaborators)
    (stash : List AuthenticatedClientInfo) (encoded : String) : HandlerResult :=
  let up := decode_username_and_password encoded
  if up.1 = "" ∨ up.2 = "" then
    some (failResp .unauthorized, stash)
  else
    let oidc_response := co.exchange (encode_body (ropc_args env up.1 up.2))
    if is_error_response oidc_response then
      some (failResp .badRequest, stash)
    else
      match oidc_response.getStr "id_token" with
      | none => none
      | some jwt_token =>
        match co.jwtDecode jwt_token with
        | none => none
        | some decoded_token =>
          if ¬ decoded_token.containsKey "irods_username" then
            some (failResp .badRequest, stash)
          else
            match decoded_token.getStr "irods_username" with
            | none => none
            | some irods_name =>
              let inserted := process_stash_insert stash (oidcInfo env irods_name)
              some (token_response inserted.1, inserted.2)

/-- The POST side of the handler (`impl.cpp` lines 424–598): missing
`Authorization` header rejects; a header containing `Basic ` anywhere selects
the Basic branch; otherwise a header containing `iRODS ` anywhere selects the
ROPC branch; otherwise reject. Both branches decode from six characters past
the first occurrence of the matched tag. -/
def auth_post (env : Env) (co : Collaborators)
    (stash : List AuthenticatedClientInfo) (authHeader : Option String) :
    HandlerResult :=
  match authHeader with
  | none => some (failResp .badRequest, stash)
  | some v =>
    match findSub v "Basic " with
    | some pos => auth_basic_branch env co stash (sliceFrom v (pos + 6))
    | none =>
      match findSub v "iRODS " with
      | some alt_method => auth_ropc_branch env co stash (sliceFrom v (alt_method + 6))
      | none => some (failResp .badRequest, stash)

/-- `is_state_valid` of the callback branch: comparison with the fixed
`placeholder` literal. -/
def is_state_valid (in_state : String) : Bool :=
  in_state = "placeholder"

/-- The `exp` read and the remaining steps of the callback branch
(`impl.cpp` lines 375–419). -/
def auth_get_callback_exp (env : Env) (_co : Collaborators)
    (stash : List AuthenticatedClientInfo) (decoded_token : Json) :
    HandlerResult :=
  match decoded_token.find "exp" with
  | none => none
  | some _ =>
    if ¬ decoded_token.containsKey "irods_username" then
      some (failResp .badRequest, stash)
    else
      match decoded_token.getStr "irods_username" with
      | none => none
      | some irods_name =>
        let inserted := process_stash_insert stash (oidcInfo env irods_name)
        some (token_response inserted.1, inserted.2)

/-- Continuation of the callback branch from the `azp` check on
(`impl.cpp` lines 362–419). The `exp` comparison of step 9 is computed but its
result is discarded: the `if` body in the source is empty, so an expired token
is not rejected. -/
def auth_get_callback_azp (env : Env) (co : Collaborators)
    (stash : List AuthenticatedClientInfo) (decoded_token : Json) :
    HandlerResult :=
  (if decoded_token.containsKey "azp" then
    match decoded_token.getStr "azp" with
    | none => none
    | some azp_field =>
      if azp_field ≠ env.oidc.client_id then some (failResp .badRequest, stash)
      else auth_get_callback_exp env co stash decoded_token
  else auth_get_callback_exp env co stash decoded_token)

/-- The GET callback branch (`impl.cpp` lines 242–420), applied to the parsed
query pairs. -/
def auth_get_callback (env : Env) (co : Collaborators)
    (stash : List AuthenticatedClientInfo) (query : List (String × String)) :
    HandlerResult :=
  match query.lookup "state" with
  | none => some (failResp .badRequest, stash)
  | some st =>
    if ¬ is_state_valid st then
      some (failResp .badRequest, stash)
    else
      match query.lookup "code" with
      | none => some (failResp .badRequest, stash)
      | some code =>
        let oidc_response := co.exchange (encode_body (token_request_args env code))
        if is_error_response oidc_response then
          some (failResp .badRequest, stash)
        else
          match oidc_response.getStr "id_token" with
          | none => none
          | some jwt_token =>
            match co.jwtDecode jwt_token with
            | none => none
            | some decoded_token =>
              match decoded_token.getStr "iss" with
              | none => none
              | some iss =>
                if iss ≠ env.endp.issuer then
                  some (failResp .badRequest, stash)
                else
                  match decoded_token.find "aud" with
                  | none => none
                  | some aud =>
                    if aud.isArray then
                      some (failResp .badRequest, stash)
                    else
                      match aud.asStr with
                      | none => none
                      | some audStr =>
                        if audStr ≠ env.oidc.client_id then
                          some (failResp .badRequest, stash)
                        else
                          auth_get_callback_azp env co stash decoded_token

/-- The redirect arguments of the Initiate branch (`impl.cpp` lines 216–223),
in source order. -/
def initiate_args (env : Env) : List (String × String) :=
  [("client_id", env.oidc.client_id), ("response_type", "code"),
   ("scope", "openid"), ("redirect_uri", env.oidc.redirect_uri),
   ("state", "placeholder")]

/-- The Initiate branch (`impl.cpp` lines 214–240), taken when `parse_url`
threw: a `302 Found` whose `Location` is the authorization endpoint, a `?`,
and the encoded redirect arguments. -/
def auth_get_initiate (env : Env) (stash : List AuthenticatedClientInfo) :
    HandlerResult :=
  let encoded_url := env.endp.authorization_endpoint ++ "?" ++ encode_body (initiate_args env)
  some ({ status := .found, location := some encoded_url }, stash)

/-- The GET side of the handler (`impl.cpp` lines 204–421): `parsedQuery` is
the result of `irods::http::parse_url`, `none` when it threw (absent or
unparsable query). -/
def auth_get (env : Env) (co : Collaborators)
    (stash : List AuthenticatedClientInfo)
    (parsedQuery : Option (List (String × String))) : HandlerResult :=
  match parsedQuery with
  | none => auth_get_initiate env stash
  | some query => auth_get_callback env co stash query

/-- HTTP methods as the handler discriminates them. -/
inductive Method where
  | get : Method
  | post : Method
  | other : Method
  deriving Repr, DecidableEq

/-- The `authentication` endpoint handler (`impl.cpp` lines 202–604):
dispatch on the request method, with the parsed query of a GET and the
`authorization` header of a POST as the request data the branches consume. -/
def authentication (env : Env) (co : Collaborators)
    (stash : List AuthenticatedClientInfo) (method : Method)
    (parsedQuery : Option (List (String × String))) (authHeader : Option String) :
    HandlerResult :=
  match method with
  | .get => auth_get env co stash parsedQuery
  | .post => auth_post env co stash authHeader
  | .other => some (failResp .methodNotAllowed, stash)

/-! ### Concrete sample data used by the witnesses -/

/-- A concrete environment for witnesses: client id `cid`, issuer
`https://idp`, timeout 3600 seconds, current instant 1000. -/
def sampleEnv : Env :=
  { oidc := { client_id := "cid", redirect_uri := "https://app/callback" }
    endp := { authorization_endpoint := "https://idp/auth", issuer := "https://idp" }
    timeout_in_seconds := 3600
    now := 1000 }

/-- A concrete ID-token payload that passes every validation step of the
callback path. -/
def sampleToken : Json :=
  Json.obj [("iss", Json.str "https://idp"), ("aud", Json.str "cid"),
    ("exp", Json.num 999999), ("irods_username", Json.str "alice")]

/-- Concrete collaborators for witnesses: the exchange yields an `id_token`,
the JWT decoder yields `sampleToken`, and the backend accepts. -/
def sampleCo : Collaborators :=
  { exchange := fun _ => Json.obj [("id_token", Json.str "jwt")]
    jwtDecode := fun _ => some sampleToken
    checkAuth := fun _ _ => .ok 0 (some 1) }

/-! ### Helper lemmas -/

/-- A lookup in an association list succeeds exactly when the key occurs. -/
theorem lookup_isSome_iff_mem {β : Type} (l : List (String × β)) (a : String) :
    (l.lookup a).isSome = true ↔ a ∈ l.map Prod.fst := by
  induction l with
  | nil => simp
  | cons hd tl ih =>
    obtain ⟨k, v⟩ := hd
    by_cases h : a = k
    · subst h; simp [List.lookup_cons]
    · have hbeq : (a == k) = false := by simp [h]
      simp only [List.lookup_cons, hbeq, List.map_cons, List.mem_cons]
      simp [ih, h]

/-- Tokens issued by the modelled stash are never empty. -/
theorem process_stash_insert_ne_empty (stash : List AuthenticatedClientInfo)
    (info : AuthenticatedClientInfo) : (process_stash_insert stash info).1 ≠ "" := by
  intro h
  have hlen := congrArg String.length h
  rw [process_stash_insert, String.length_append] at hlen
  have h6 : ("token-" : String).length = 6 := rfl
  have h0 : ("" : String).length = 0 := rfl
  rw [h6, h0] at hlen
  omega

/-- A colon-free character list has no first colon. -/
theorem splitFirstColon_eq_none (cs : List Char) (h : ':' ∉ cs) :
    splitFirstColon cs = none := by
  induction cs with
  | nil => rfl
  | cons c t ih =>
    have hc : c ≠ ':' := fun hcc => h (hcc ▸ List.mem_cons_self c t)
    have ht : ':' ∉ t := fun htt => h (List.mem_cons_of_mem c htt)
    simp [splitFirstColon, hc, ih ht]

/-- Splitting at the first colon of `pre ++ ':' :: post` when `pre` is
colon-free. -/
theorem splitFirstColon_append (pre post : List Char) (h : ':' ∉ pre) :
    splitFirstColon (pre ++ ':' :: post) = some (pre, post) := by
  induction pre with
  | nil => simp [splitFirstColon]
  | cons c t ih =>
    have hc : c ≠ ':' := fun hcc => h (hcc ▸ List.mem_cons_self c t)
    have ht : ':' ∉ t := fun htt => h (List.mem_cons_of_mem c htt)
    simp [splitFirstColon, hc, ih ht]

/-! ### Claims -/

/-- C9: `is_error_response` returns true iff the document has a top-level
`error` key; all other fields (`error_description`, `error_uri`, anything
else) are irrelevant to the boolean result. -/
theorem is_error_response_iff_error_key (j : Json) :
    is_error_response j = true ↔ "error" ∈ j.keys := by
  cases j with
  | obj fields =>
    simp only [is_error_response, Json.find, Json.keys]
    exact lookup_isSome_iff_mem fields "error"
  | null => simp [is_error_response, Json.find, Json.keys]
  | bool b => simp [is_error_response, Json.find, Json.keys]
  | num n => simp [is_error_response, Json.find, Json.keys]
  | str s => simp [is_error_response, Json.find, Json.keys]
  | arr xs => simp [is_error_response, Json.find, Json.keys]

/-- C8: `decode_username_and_password` maps the base64 encoding of
`alice:secret` to `("alice", "secret")`; malformed base64 and colon-free
decoded bytes give `("", "")`; otherwise the decoded bytes split at the first
colon into username and password. (The decoded material is bounded by the
source's 128-byte credential buffer.) -/
theorem decode_username_and_password_spec :
    decode_username_and_password "YWxpY2U6c2VjcmV0" = ("alice", "secret") ∧
    (∀ s, base64_decode (strTrim s) = none →
      decode_username_and_password s = ("", "")) ∧
    (∀ s bs, base64_decode (strTrim s) = some bs → bs.length ≤ max_creds_size →
      ':' ∉ bs → decode_username_and_password s = ("", "")) ∧
    (∀ s pre post, base64_decode (strTrim s) = some (pre ++ ':' :: post) →
      (pre ++ ':' :: post).length ≤ max_creds_size → ':' ∉ pre →
      decode_username_and_password s = (⟨pre⟩, ⟨post⟩)) := by
  refine ⟨by decide, ?_, ?_, ?_⟩
  · intro s h
    simp only [decode_username_and_password, h]
    rfl
  · intro s bs h hlen hcolon
    simp only [decode_username_and_password, h, if_pos hlen,
      splitFirstColon_eq_none bs hcolon]
  · intro s pre post h hlen hcolon
    simp only [decode_username_and_password, h, if_pos hlen,
      splitFirstColon_append pre post hcolon]

/-- Witness for C8 at concrete inputs: well-formed credentials, garbage
base64, colon-free decoded bytes, and a password containing a colon
(`YTpiOmM=` is base64 of `a:b:c`). -/
theorem decode_username_and_password_spec_witness :
    decode_username_and_password "YWxpY2U6c2VjcmV0" = ("alice", "secret") ∧
    decode_username_and_password "####" = ("", "") ∧
    decode_username_and_password "YWxpY2U=" = ("", "") ∧
    decode_username_and_password "YTpiOmM=" = (⟨['a']⟩, ⟨['b', ':', 'c']⟩) := by
  refine ⟨decode_username_and_password_spec.1,
    decode_username_and_password_spec.2.1 "####" (by decide),
    decode_username_and_password_spec.2.2.1 "YWxpY2U=" "alice".data
      (by decide) (by decide) (by decide),
    decode_username_and_password_spec.2.2.2 "YTpiOmM=" ['a'] ['b', ':', 'c']
      (by decide) (by decide) (by decide)⟩

/-- C6: a GET whose query is absent or unparsable is answered `302 Found`
with `Location` equal to the configured authorization endpoint, `?`, and the
form encoding of exactly the five pairs `client_id`, `response_type=code`,
`scope=openid`, `redirect_uri`, `state`, in source order. -/
theorem get_initiate_redirect (env : Env) (co : Collaborators)
    (stash : List AuthenticatedClientInfo) (hdr : Option String) :
    authentication env co stash .get none hdr =
      some ({ status := .found
              contentType := none
              location := some (env.endp.authorization_endpoint ++ "?" ++
                (encode_pair ("client_id", env.oidc.client_id) ++ "&" ++
                 encode_pair ("response_type", "code") ++ "&" ++
                 encode_pair ("scope", "openid") ++ "&" ++
                 encode_pair ("redirect_uri", env.oidc.redirect_uri) ++ "&" ++
                 encode_pair ("state", "placeholder")))
              body := "" }, stash) := by
  rfl

/-- C10: POST scheme detection is a substring search: a header containing
`Basic ` anywhere runs the Basic branch on the text six characters past the
first occurrence (so `iRODS ` elsewhere in the value is ignored), and the
ROPC branch runs only when `Basic ` is absent and `iRODS ` occurs, again
decoding six characters past its first occurrence. -/
theorem post_dispatch_substring_search (env : Env) (co : Collaborators)
    (stash : List AuthenticatedClientInfo)
    (pq : Option (List (String × String))) (v : String) (p q : Nat) :
    (findSub v "Basic " = some p →
      authentication env co stash .post pq (some v) =
        auth_basic_branch env co stash (sliceFrom v (p + 6))) ∧
    (findSub v "Basic " = none → findSub v "iRODS " = some q →
      authentication env co stash .post pq (some v) =
        auth_ropc_branch env co stash (sliceFrom v (q + 6))) := by
  constructor
  · intro h
    simp [authentication, auth_post, h]
  · intro h1 h2
    simp [authentication, auth_post, h1, h2]

/-- Witness for C10: a header containing both `iRODS ` and `Basic ` runs the
Basic branch from position 6+6; a header with only `iRODS ` runs the ROPC
branch from position 0+6. -/
theorem post_dispatch_substring_search_witness :
    (authentication sampleEnv sampleCo [] .post none (some "iRODS Basic YWxpY2U6c2VjcmV0") =
      auth_basic_branch sampleEnv sampleCo [] (sliceFrom "iRODS Basic YWxpY2U6c2VjcmV0" (6 + 6))) ∧
    (authentication sampleEnv sampleCo [] .post none (some "iRODS YWxpY2U6c2VjcmV0") =
      auth_ropc_branch sampleEnv sampleCo [] (sliceFrom "iRODS YWxpY2U6c2VjcmV0" (0 + 6))) := by
  refine ⟨(post_dispatch_substring_search sampleEnv sampleCo [] none
      "iRODS Basic YWxpY2U6c2VjcmV0" 6 0).1 (by decide),
    (post_dispatch_substring_search sampleEnv sampleCo [] none
      "iRODS YWxpY2U6c2VjcmV0" 0 0).2 (by decide) (by decide)⟩

/-- Collaborators whose backend check throws (for the C4 witness). -/
def excCo : Collaborators :=
  { sampleCo with checkAuth := fun _ _ => .exc }

/-- Collaborators whose token exchange returns an OAuth error document. -/
def errCo : Collaborators :=
  { sampleCo with exchange := fun _ => Json.obj [("error", Json.str "invalid_grant")] }

/-- An ID-token payload carrying only `irods_username` (none of the claims
the callback path checks). -/
def bareToken : Json :=
  Json.obj [("irods_username", Json.str "bob")]

/-- Collaborators whose JWT decoder yields `bareToken`. -/
def bareCo : Collaborators :=
  { sampleCo with jwtDecode := fun _ => some bareToken }

/-- C4: in the Basic-header POST path, when the decoded credentials are
non-empty, the login is reported successful (200 with a token and one stash
insertion) iff the RPC returned an error code ≥ 0 and the out-parameter
points at the value 1; any other RPC outcome, and any exception escaping the
backend steps, yields 401 with the stash untouched; the scope guard releases
the out-parameter on every branch; and the branch always delivers a response
(models: the process never terminates on this path). -/
theorem basic_bridge_check (env : Env) (co : Collaborators)
    (stash : List AuthenticatedClientInfo) (encoded : String)
    (h1 : (decode_username_and_password encoded).1 ≠ "")
    (h2 : (decode_username_and_password encoded).2 ≠ "") :
    (∀ ec correct,
      co.checkAuth (decode_username_and_password encoded).1
          (decode_username_and_password encoded).2 = .ok ec correct →
      auth_basic_branch env co stash encoded =
        (if 0 ≤ ec ∧ correct = some 1 then
          some (token_response
              (process_stash_insert stash
                (basicInfo env (decode_username_and_password encoded))).1,
            stash ++ [basicInfo env (decode_username_and_password encoded)])
        else some (failResp .unauthorized, stash))) ∧
    (co.checkAuth (decode_username_and_password encoded).1
        (decode_username_and_password encoded).2 = .exc →
      auth_basic_branch env co stash encoded =
        some (failResp .unauthorized, stash)) ∧
    (∀ r, (basic_login_check r).2 = true) ∧
    (∀ (co2 : Collaborators) (enc2 : String),
      ∃ out, auth_basic_branch env co2 stash enc2 = some out) := by
  refine ⟨?_, ?_, ?_, ?_⟩
  · intro ec correct hrpc
    by_cases hsucc : 0 ≤ ec ∧ correct = some 1
    · have hneg : ¬ ec < 0 := Int.not_lt.mpr hsucc.1
      rw [if_pos hsucc]
      simp [auth_basic_branch, h1, h2, hrpc, basic_login_check, hneg, hsucc.2,
        process_stash_insert]
    · rw [if_neg hsucc]
      rcases Decidable.not_and_iff_or_not.mp hsucc with hlt | hcor
      · have hneg : ec < 0 := Int.not_le.mp hlt
        simp [auth_basic_branch, h1, h2, hrpc, basic_login_check, hneg]
      · simp [auth_basic_branch, h1, h2, hrpc, basic_login_check, hcor]
  · intro hexc
    simp [auth_basic_branch, h1, h2, hexc, basic_login_check]
  · intro r
    cases r <;> rfl
  · intro co2 enc2
    by_cases hup : (decode_username_and_password enc2).1 = "" ∨
        (decode_username_and_password enc2).2 = ""
    · exact ⟨(failResp .unauthorized, stash), by simp [auth_basic_branch, hup]⟩
    · by_cases hch : (basic_login_check (co2.checkAuth
          (decode_username_and_password enc2).1 (decode_username_and_password enc2).2)).1
      · refine ⟨(token_response (process_stash_insert stash
            (basicInfo env (decode_username_and_password enc2))).1,
          (process_stash_insert stash (basicInfo env (decode_username_and_password enc2))).2), ?_⟩
        simp [auth_basic_branch, hup, hch]
      · exact ⟨(failResp .unauthorized, stash), by simp [auth_basic_branch, hup, hch]⟩

/-- Witness for C4: an accepting backend yields 200 with a stash insertion;
a throwing backend yields 401 with no insertion. -/
theorem basic_bridge_check_witness :
    auth_basic_branch sampleEnv sampleCo [] "YWxpY2U6c2VjcmV0" =
      some (token_response "token-0", [basicInfo sampleEnv ("alice", "secret")]) ∧
    auth_basic_branch sampleEnv excCo [] "YWxpY2U6c2VjcmV0" =
      some (failResp .unauthorized, []) := by
  constructor
  · have h := (basic_bridge_check sampleEnv sampleCo [] "YWxpY2U6c2VjcmV0"
      (by decide) (by decide)).1 0 (some 1) rfl
    rw [if_pos ⟨le_refl 0, rfl⟩] at h
    exact h.trans (by decide)
  · exact (basic_bridge_check sampleEnv excCo [] "YWxpY2U6c2VjcmV0"
      (by decide) (by decide)).2.1 rfl

/-- C3: in the GET callback branch, a missing `state`, a `state` different
from the expected value, a missing `code` (whether or not an `error`
parameter is present), and an error token-exchange response each produce
`400` with the stash untouched, so no bearer token is issued. -/
theorem callback_rejections (env : Env) (co : Collaborators)
    (stash : List AuthenticatedClientInfo) (query : List (String × String))
    (hdr : Option String) :
    (query.lookup "state" = none →
      authentication env co stash .get (some query) hdr =
        some (failResp .badRequest, stash)) ∧
    (∀ st, query.lookup "state" = some st → st ≠ "placeholder" →
      authentication env co stash .get (some query) hdr =
        some (failResp .badRequest, stash)) ∧
    (query.lookup "state" = some "placeholder" → query.lookup "code" = none →
      authentication env co stash .get (some query) hdr =
        some (failResp .badRequest, stash)) ∧
    (∀ code, query.lookup "state" = some "placeholder" →
      query.lookup "code" = some code →
      is_error_response (co.exchange (encode_body (token_request_args env code))) = true →
      authentication env co stash .get (some query) hdr =
        some (failResp .badRequest, stash)) := by
  refine ⟨?_, ?_, ?_, ?_⟩
  · intro h
    simp [authentication, auth_get, auth_get_callback, h]
  · intro st hst hne
    simp [authentication, auth_get, auth_get_callback, hst, is_state_valid, hne]
  · intro hst hcode
    simp [authentication, auth_get, auth_get_callback, hst, hcode, is_state_valid]
  · intro code hst hcode herr
    simp [authentication, auth_get, auth_get_callback, hst, hcode, is_state_valid, herr]

/-- Witness for C3 at concrete queries: no `state`; a wrong `state`; a valid
`state` without `code` (one case with an `error` parameter present); and an
error response from the exchange. -/
theorem callback_rejections_witness :
    authentication sampleEnv sampleCo [] .get (some [("code", "abc")]) none =
      some (failResp .badRequest, []) ∧
    authentication sampleEnv sampleCo [] .get (some [("state", "wrong")]) none =
      some (failResp .badRequest, []) ∧
    authentication sampleEnv sampleCo [] .get
        (some [("state", "placeholder"), ("error", "access_denied")]) none =
      some (failResp .badRequest, []) ∧
    authentication sampleEnv errCo [] .get
        (some [("state", "placeholder"), ("code", "abc")]) none =
      some (failResp .badRequest, []) := by
  refine ⟨(callback_rejections sampleEnv sampleCo [] [("code", "abc")] none).1 (by decide),
    (callback_rejections sampleEnv sampleCo [] [("state", "wrong")] none).2.1
      "wrong" (by decide) (by decide),
    (callback_rejections sampleEnv sampleCo []
      [("state", "placeholder"), ("error", "access_denied")] none).2.2.1
      (by decide) (by decide),
    (callback_rejections sampleEnv errCo []
      [("state", "placeholder"), ("code", "abc")] none).2.2.2
      "abc" (by decide) (by decide) (by decide)⟩

/-- A successful string read of a claim implies the key is present. -/
theorem containsKey_of_getStr {j : Json} {k : String} {s : String}
    (h : j.getStr k = some s) : j.containsKey k = true := by
  rcases Option.bind_eq_some.mp h with ⟨a, ha, _⟩
  simp [Json.containsKey, ha]

/-- C5: the ROPC POST path decodes credentials with the same
`decode_username_and_password` as the Basic path, answers 401 on empty
username or password, calls the token endpoint with the form body
`{client_id, grant_type=password, scope=openid, username, password}`,
answers 400 on an error response, and otherwise performs only the
`irods_username` extraction on the returned ID token (no `iss`/`aud`/`azp`/
`exp` conditions) before issuing an `openid_connect` bearer token with 200. -/
theorem ropc_path (env : Env) (co : Collaborators)
    (stash : List AuthenticatedClientInfo) (pq : Option (List (String × String)))
    (v : String) (q : Nat) (up : String × String)
    (hB : findSub v "Basic " = none) (hI : findSub v "iRODS " = some q)
    (hup : decode_username_and_password (sliceFrom v (q + 6)) = up) :
    (up.1 = "" ∨ up.2 = "" →
      authentication env co stash .post pq (some v) =
        some (failResp .unauthorized, stash)) ∧
    (up.1 ≠ "" → up.2 ≠ "" →
      is_error_response (co.exchange (encode_body (ropc_args env up.1 up.2))) = true →
      authentication env co stash .post pq (some v) =
        some (failResp .badRequest, stash)) ∧
    (∀ jwt tok name, up.1 ≠ "" → up.2 ≠ "" →
      is_error_response (co.exchange (encode_body (ropc_args env up.1 up.2))) = false →
      (co.exchange (encode_body (ropc_args env up.1 up.2))).getStr "id_token" = some jwt →
      co.jwtDecode jwt = some tok →
      tok.getStr "irods_username" = some name →
      authentication env co stash .post pq (some v) =
        some (token_response (process_stash_insert stash (oidcInfo env name)).1,
          stash ++ [oidcInfo env name])) := by
  refine ⟨?_, ?_, ?_⟩
  · intro h
    rcases h with h | h <;>
      simp [authentication, auth_post, hB, hI, auth_ropc_branch, hup, h]
  · intro hne1 hne2 herr
    have hno : ¬ (up.1 = "" ∨ up.2 = "") := by simp [hne1, hne2]
    simp [authentication, auth_post, hB, hI, auth_ropc_branch, hup, hno, herr]
  · intro jwt tok name hne1 hne2 herr hid hdec hname
    have hno : ¬ (up.1 = "" ∨ up.2 = "") := by simp [hne1, hne2]
    simp [authentication, auth_post, hB, hI, auth_ropc_branch, hup, hno, herr,
      hid, hdec, containsKey_of_getStr hname, hname, process_stash_insert]

/-- Witness for C5: empty password, an error exchange, and a success whose
ID token carries only `irods_username` (so none of the callback checks can
have run). -/
theorem ropc_path_witness :
    authentication sampleEnv sampleCo [] .post none (some "iRODS YTo=") =
      some (failResp .unauthorized, []) ∧
    authentication sampleEnv errCo [] .post none (some "iRODS YWxpY2U6c2VjcmV0") =
      some (failResp .badRequest, []) ∧
    authentication sampleEnv bareCo [] .post none (some "iRODS YWxpY2U6c2VjcmV0") =
      some (token_response "token-0", [oidcInfo sampleEnv "bob"]) := by
  refine ⟨(ropc_path sampleEnv sampleCo [] none "iRODS YTo=" 0 ("a", "")
      (by decide) (by decide) (by decide)).1 (Or.inr rfl),
    (ropc_path sampleEnv errCo [] none "iRODS YWxpY2U6c2VjcmV0" 0 ("alice", "secret")
      (by decide) (by decide) (by decide)).2.1 (by decide) (by decide) (by decide),
    (ropc_path sampleEnv bareCo [] none "iRODS YWxpY2U6c2VjcmV0" 0 ("alice", "secret")
      (by decide) (by decide) (by decide)).2.2 "jwt" bareToken "bob"
      (by decide) (by decide) (by decide) (by decide) rfl (by decide)⟩

/-- C1: the successful callback: expected `state`, a `code`, a non-error
exchange, and an ID token passing every validation step produce a 200
`text/plain` response whose body is the (non-empty) bearer token, with
exactly one stash insertion of scheme `openid_connect`, the token's
`irods_username` as username, and `expires_at = now + timeout`. -/
theorem callback_success (env : Env) (co : Collaborators)
    (stash : List AuthenticatedClientInfo) (query : List (String × String))
    (hdr : Option String) (code jwt : String) (tok : Json) (uname : String)
    (expv : Int)
    (hstate : query.lookup "state" = some "placeholder")
    (hcode : query.lookup "code" = some code)
    (hnoerr : is_error_response (co.exchange (encode_body (token_request_args env code))) = false)
    (hid : (co.exchange (encode_body (token_request_args env code))).getStr "id_token" = some jwt)
    (hdec : co.jwtDecode jwt = some tok)
    (hiss : tok.getStr "iss" = some env.endp.issuer)
    (haud : tok.find "aud" = some (Json.str env.oidc.client_id))
    (hazp : tok.find "azp" = none ∨ tok.getStr "azp" = some env.oidc.client_id)
    (hexp : tok.find "exp" = some (Json.num expv))
    (_hfresh : (env.now : Int) < expv)
    (huser : tok.getStr "irods_username" = some uname) :
    authentication env co stash .get (some query) hdr =
      some (token_response (process_stash_insert stash (oidcInfo env uname)).1,
        stash ++ [oidcInfo env uname]) ∧
    (process_stash_insert stash (oidcInfo env uname)).1 ≠ "" := by
  refine ⟨?_, process_stash_insert_ne_empty stash (oidcInfo env uname)⟩
  have hissfind := Option.bind_eq_some.mp hiss
  rcases hissfind with ⟨issj, hissj, hissstr⟩
  have hexpcont : tok.containsKey "exp" = true := by simp [Json.containsKey, hexp]
  rcases hazp with hazpn | hazps
  · have hazpcont : tok.containsKey "azp" = false := by simp [Json.containsKey, hazpn]
    simp [authentication, auth_get, auth_get_callback, auth_get_callback_azp,
      auth_get_callback_exp, hstate, is_state_valid, hcode, hnoerr, hid, hdec,
      hiss, haud, hazpcont, hexp, huser, containsKey_of_getStr huser,
      process_stash_insert, Json.isArray, Json.asStr]
  · have hazpcont : tok.containsKey "azp" = true := containsKey_of_getStr hazps
    simp [authentication, auth_get, auth_get_callback, auth_get_callback_azp,
      auth_get_callback_exp, hstate, is_state_valid, hcode, hnoerr, hid, hdec,
      hiss, haud, hazpcont, hazps, hexp, huser, containsKey_of_getStr huser,
      process_stash_insert, Json.isArray, Json.asStr]

/-- Witness for C1: the sample environment, exchange, and token produce the
bearer token `token-0` with one `openid_connect` insertion for `alice`. -/
theorem callback_success_witness :
    authentication sampleEnv sampleCo [] .get
        (some [("state", "placeholder"), ("code", "abc123")]) none =
      some (token_response "token-0", [oidcInfo sampleEnv "alice"]) ∧
    "token-0" ≠ "" := by
  have h := callback_success sampleEnv sampleCo [] [("state", "placeholder"), ("code", "abc123")]
    none "abc123" "jwt" sampleToken "alice" 999999
    (by decide) (by decide) (by decide) (by decide) rfl (by decide)
    rfl (Or.inl rfl) rfl (by decide) (by decide)
  exact ⟨h.1, by decide⟩

/-- An ID-token payload expired relative to `sampleEnv.now = 1000`
(`exp = 5`) but valid in every other callback check. -/
def expiredToken : Json :=
  Json.obj [("iss", Json.str "https://idp"), ("aud", Json.str "cid"),
    ("exp", Json.num 5), ("irods_username", Json.str "alice")]

/-- Collaborators whose JWT decoder yields the expired token. -/
def expiredCo : Collaborators :=
  { sampleCo with jwtDecode := fun _ => some expiredToken }

/-- C2 divergence: the callback's `exp` comparison (`impl.cpp` line 375) has
an empty body, so an otherwise-valid ID token whose `exp` (5) lies before
the current instant (1000) is not rejected with 400: the handler issues a
bearer token and responds 200 with one stash insertion. -/
theorem expired_token_not_rejected :
    expiredToken.find "exp" = some (Json.num 5) ∧
    (5 : Int) < (sampleEnv.now : Int) ∧
    authentication sampleEnv expiredCo [] .get
        (some [("state", "placeholder"), ("code", "abc123")]) none =
      some (token_response "token-0", [oidcInfo sampleEnv "alice"]) := by
  exact ⟨rfl, by decide, by decide⟩

/-! ### Form-encoder round trip (C7) -/

/-- Hexadecimal digits of values below 16 decode back to the value. -/
theorem hexDigitVal_hexDigitChar (n : Nat) (h : n < 16) :
    hexDigitVal (hexDigitChar n) = n := by
  interval_cases n <;> decide

/-- The hexadecimal digit characters are never `&` or `=`. -/
theorem hexDigitChar_ne (n : Nat) (h : n < 16) :
    hexDigitChar n ≠ '&' ∧ hexDigitChar n ≠ '=' := by
  interval_cases n <;> decide

/-- Unfolding of `pencodeList` on a cons cell. -/
theorem pencodeList_cons (c : Char) (t : List Char) :
    pencodeList (c :: t) = pencodeChar c ++ pencodeList t := rfl

/-- No character emitted by the percent-encoder for one byte is `&` or `=`. -/
theorem mem_pencodeChar_ne (c x : Char) (hx : x ∈ pencodeChar c) :
    x ≠ '&' ∧ x ≠ '=' := by
  unfold pencodeChar at hx
  by_cases hu : isUnreservedChar c
  · rw [if_pos hu] at hx
    rcases List.mem_singleton.mp hx with rfl
    constructor <;> rintro rfl <;> simp [isUnreservedChar] at hu
  · rw [if_neg hu] at hx
    have hlt1 : c.toNat / 16 % 16 < 16 := Nat.mod_lt _ (by norm_num)
    have hlt2 : c.toNat % 16 < 16 := Nat.mod_lt _ (by norm_num)
    simp only [List.mem_cons, List.not_mem_nil, or_false] at hx
    rcases hx with rfl | rfl | rfl
    · exact ⟨by decide, by decide⟩
    · exact hexDigitChar_ne _ hlt1
    · exact hexDigitChar_ne _ hlt2

/-- Percent-encoded byte strings contain neither `&` nor `=`. -/
theorem pencodeList_no_amp_eq (cs : List Char) :
    '&' ∉ pencodeList cs ∧ '=' ∉ pencodeList cs := by
  induction cs with
  | nil => exact ⟨by simp [pencodeList], by simp [pencodeList]⟩
  | cons c t ih =>
    rw [pencodeList_cons]
    constructor <;> intro hmem <;> rcases List.mem_append.mp hmem with h | h
    · exact (mem_pencodeChar_ne c _ h).1 rfl
    · exact ih.1 h
    · exact (mem_pencodeChar_ne c _ h).2 rfl
    · exact ih.2 h

/-- A cons headed by a non-`%` character percent-decodes pointwise. -/
theorem pdecodeList_cons_ne (c : Char) (rest : List Char) (h : c ≠ '%') :
    pdecodeList (c :: rest) = c :: pdecodeList rest := by
  rw [pdecodeList.eq_def]
  split
  · rename_i a b r heq
    injection heq with h1 h2
    exact absurd h1 h
  · rename_i c2 r2 heq
    injection heq with h1 h2
    subst h1; subst h2; rfl
  · rename_i heq
    cases heq

/-- A `%XY` triple percent-decodes to its byte. -/
theorem pdecodeList_pct (a b : Char) (rest : List Char) :
    pdecodeList ('%' :: a :: b :: rest) =
      Char.ofNat (16 * hexDigitVal a + hexDigitVal b) :: pdecodeList rest := rfl

/-- Percent-decoding undoes the encoding of one byte. -/
theorem pdecode_pencodeChar (c : Char) (rest : List Char) (h : c.toNat < 256) :
    pdecodeList (pencodeChar c ++ rest) = c :: pdecodeList rest := by
  by_cases hu : isUnreservedChar c
  · have hc : c ≠ '%' := by
      rintro rfl
      simp [isUnreservedChar] at hu
    rw [pencodeChar, if_pos hu, List.singleton_append, pdecodeList_cons_ne c rest hc]
  · rw [pencodeChar, if_neg hu]
    have hlt1 : c.toNat / 16 % 16 < 16 := Nat.mod_lt _ (by norm_num)
    have hlt2 : c.toNat % 16 < 16 := Nat.mod_lt _ (by norm_num)
    have hshape : (['%', hexDigitChar (c.toNat / 16 % 16), hexDigitChar (c.toNat % 16)] ++ rest)
        = '%' :: hexDigitChar (c.toNat / 16 % 16) :: hexDigitChar (c.toNat % 16) :: rest := rfl
    rw [hshape, pdecodeList_pct, hexDigitVal_hexDigitChar _ hlt1,
      hexDigitVal_hexDigitChar _ hlt2]
    have h16 : c.toNat / 16 < 16 := by omega
    rw [Nat.mod_eq_of_lt h16]
    have hval : 16 * (c.toNat / 16) + c.toNat % 16 = c.toNat := by omega
    rw [hval, Char.ofNat_toNat]

/-- Percent-decoding undoes percent-encoding on byte strings. -/
theorem pdecode_pencodeList (cs : List Char) (h : ∀ c ∈ cs, c.toNat < 256) :
    pdecodeList (pencodeList cs) = cs := by
  induction cs with
  | nil => rfl
  | cons c t ih =>
    rw [pencodeList_cons, pdecode_pencodeChar c _ (h c (List.mem_cons_self c t)),
      ih fun x hx => h x (List.mem_cons_of_mem c hx)]

/-- An `&`-free character list is one whole piece. -/
theorem splitOnAmp_no_amp (xs : List Char) (h : '&' ∉ xs) :
    splitOnAmpList xs = [xs] := by
  induction xs with
  | nil => rfl
  | cons c t ih =>
    have hc : c ≠ '&' := by rintro rfl; exact h (List.mem_cons_self _ _)
    have ht : '&' ∉ t := fun m => h (List.mem_cons_of_mem _ m)
    simp [splitOnAmpList, hc, ih ht]

/-- Splitting after an `&`-free leading piece. -/
theorem splitOnAmp_append (xs ys : List Char) (h : '&' ∉ xs) :
    splitOnAmpList (xs ++ '&' :: ys) = xs :: splitOnAmpList ys := by
  induction xs with
  | nil => simp [splitOnAmpList]
  | cons c t ih =>
    have hc : c ≠ '&' := by rintro rfl; exact h (List.mem_cons_self _ _)
    have ht : '&' ∉ t := fun m => h (List.mem_cons_of_mem _ m)
    simp [splitOnAmpList, hc, ih ht]

/-- Splitting a piece at its `=` separator when the key part is `=`-free. -/
theorem splitFirstEq_append (xs ys : List Char) (h : '=' ∉ xs) :
    splitFirstEqList (xs ++ '=' :: ys) = (xs, ys) := by
  induction xs with
  | nil => simp [splitFirstEqList]
  | cons c t ih =>
    have hc : c ≠ '=' := by rintro rfl; exact h (List.mem_cons_self _ _)
    have ht : '=' ∉ t := fun m => h (List.mem_cons_of_mem _ m)
    simp [splitFirstEqList, hc, ih ht]

/-- The characters of one encoded pair: the encoded key, `=`, the encoded
value. -/
theorem encode_pair_data (q : String × String) :
    (encode_pair q).data = pencodeList q.1.data ++ '=' :: pencodeList q.2.data := by
  show ((pencode q.1 ++ "=") ++ pencode q.2).data = _
  rw [String.data_append, String.data_append]
  simp [pencode]

/-- One encoded pair contains no `&`. -/
theorem encode_pair_no_amp (q : String × String) : '&' ∉ (encode_pair q).data := by
  rw [encode_pair_data]
  intro hmem
  rcases List.mem_append.mp hmem with h | h
  · exact (pencodeList_no_amp_eq q.1.data).1 h
  · rcases List.mem_cons.mp h with h1 | h2
    · cases h1
    · exact (pencodeList_no_amp_eq q.2.data).1 h2

/-- The characters of the encoded body: first pair, then `&`-prefixed
pairs. -/
theorem encode_body_data (p : String × String) (ps : List (String × String)) :
    (encode_body (p :: ps)).data =
      (encode_pair p).data ++ (ps.map fun q => '&' :: (encode_pair q).data).flatten := by
  suffices h : ∀ (l : List (String × String)) (a : String),
      (l.foldl (fun acc q => acc ++ "&" ++ encode_pair q) a).data =
        a.data ++ (l.map fun q => '&' :: (encode_pair q).data).flatten by
    simpa [encode_body] using h ps (encode_pair p)
  intro l
  induction l with
  | nil => intro a; simp
  | cons q qs ih =>
    intro a
    rw [List.foldl_cons, ih]
    rw [String.data_append, String.data_append]
    simp

/-- Splitting the encoded body on `&` recovers the encoded pairs. -/
theorem splitOnAmp_body (p : String × String) (ps : List (String × String)) :
    splitOnAmpList
        ((encode_pair p).data ++ (ps.map fun q => '&' :: (encode_pair q).data).flatten) =
      (p :: ps).map fun q => (encode_pair q).data := by
  induction ps generalizing p with
  | nil =>
    simp [splitOnAmp_no_amp _ (encode_pair_no_amp p)]
  | cons q qs ih =>
    have hshape :
        (encode_pair p).data ++ ((q :: qs).map fun r => '&' :: (encode_pair r).data).flatten =
          (encode_pair p).data ++ '&' ::
            ((encode_pair q).data ++ (qs.map fun r => '&' :: (encode_pair r).data).flatten) := by
      simp
    rw [hshape, splitOnAmp_append _ _ (encode_pair_no_amp p), ih q]
    simp

/-- Decoding one encoded pair recovers the pair. -/
theorem decode_pair (q : String × String)
    (h1 : ∀ c ∈ q.1.data, c.toNat < 256) (h2 : ∀ c ∈ q.2.data, c.toNat < 256) :
    ((⟨pdecodeList (splitFirstEqList (encode_pair q).data).1⟩ : String),
      (⟨pdecodeList (splitFirstEqList (encode_pair q).data).2⟩ : String)) = q := by
  rw [encode_pair_data, splitFirstEq_append _ _ (pencodeList_no_amp_eq q.1.data).2]
  simp only [pdecode_pencodeList _ h1, pdecode_pencodeList _ h2]

/-- Flattening an interspersed list of pieces. -/
theorem flatten_intersperse {α : Type} (sep : List α) (x : List α) (xs : List (List α)) :
    ((x :: xs).intersperse sep).flatten = x ++ (xs.map fun y => sep ++ y).flatten := by
  induction xs generalizing x with
  | nil => simp
  | cons y ys ih => simp [List.intersperse_cons_cons, ih y]

/-- C7: the form encoder percent-encodes each key and value, joins each pair
with `=` and the pairs with `&` (the encoded characters are exactly the
`&`-interspersed encoded pairs), and on any non-empty sequence of unique
byte-string pairs decoding the encoded body reconstructs the input. Being a
function of the ordered pair sequence, the encoding is deterministic. -/
theorem encode_body_decode_body (ps : List (String × String)) (hne : ps ≠ [])
    (hkeys : (ps.map Prod.fst).Nodup)
    (hbytes : ∀ p ∈ ps, (∀ c ∈ p.1.data, c.toNat < 256) ∧ ∀ c ∈ p.2.data, c.toNat < 256) :
    (encode_body ps).data =
      ((ps.map fun q => (encode_pair q).data).intersperse ['&']).flatten ∧
    decode_body (encode_body ps) = ps := by
  obtain ⟨p, ps2, rfl⟩ := List.exists_cons_of_ne_nil hne
  constructor
  · rw [encode_body_data, List.map_cons, flatten_intersperse]
    simp [List.map_map, Function.comp_def]
  · simp only [decode_body]
    rw [encode_body_data, splitOnAmp_body, List.map_map]
    have hcongr : ∀ q ∈ p :: ps2,
        ((fun piece =>
            ((⟨pdecodeList (splitFirstEqList piece).1⟩ : String),
              (⟨pdecodeList (splitFirstEqList piece).2⟩ : String))) ∘
          fun q => (encode_pair q).data) q = id q := by
      intro q hq
      exact decode_pair q (hbytes q hq).1 (hbytes q hq).2
    rw [List.map_congr_left hcongr, List.map_id]

/-- Witness for C7 at a concrete pair sequence whose strings contain spaces
and the reserved characters `&` and `=`. -/
theorem encode_body_decode_body_witness :
    (encode_body [("a b", "c&d"), ("e", "f=g")]).data =
      (([("a b", "c&d"), ("e", "f=g")].map fun q => (encode_pair q).data).intersperse
        ['&']).flatten ∧
    decode_body (encode_body [("a b", "c&d"), ("e", "f=g")]) =
      [("a b", "c&d"), ("e", "f=g")] :=
  encode_body_decode_body [("a b", "c&d"), ("e", "f=g")]
    (by decide) (by decide) (by decide)

end AuthSpec
